import Mathlib

/-!
Shallow embedding of the yieldX Position Ledger & Reallocation Pipeline.

On-chain part: contracts/contracts/YieldOptimizer.sol (deposit, withdraw,
optimizePosition).  The EVM transaction semantics is modelled by returning
`Option (ChainState × Nat)`: `none` is a reverted transaction, and the
transaction-level result (`txOptimize`, `txWithdraw`) keeps the pre-call
state on revert.  Machine integers are `Nat` (uint256 overflow never occurs
on the paths modelled: the only subtraction, `position.shares -= _shares`,
is guarded by `_shares <= position.shares`).

Off-chain part: backend/src/services/GlueXYieldsService.ts and
backend/src/services/YieldOptimizationService.ts.  External HTTP calls
(yield oracle, swap quotes, transaction submission) are parameters of the
model: each is a function whose `none` result stands for a thrown error or
an unsuccessful response.
-/

namespace YieldX

/-- Addresses are modelled as strings. -/
abbrev Addr := String

/-- `address(0)` of the EVM. -/
def addrZero : Addr := "0x0000000000000000000000000000000000000000"

/-- struct Position of YieldOptimizer.sol. -/
structure Position where
  vault : Addr
  asset : Addr
  shares : Nat
  assets : Nat
  active : Bool
deriving DecidableEq, Repr

/-- One swap leg of struct OptimizeParams: the i-th entry of the parallel
arrays routers / calldatas / inputTokens / outputTokens / inputAmounts.
The opaque calldata bytes are identified by a number. -/
structure SwapLeg where
  router : Addr
  calldataId : Nat
  inputToken : Addr
  outputToken : Addr
  inputAmount : Nat
deriving DecidableEq, Repr

/-- struct OptimizeParams of YieldOptimizer.sol, with the five parallel
arrays zipped into one list of legs (the contract requires equal lengths,
so the zipped form loses nothing). -/
structure OptimizeParams where
  legs : List SwapLeg
  targetVault : Addr
  minSharesOut : Nat

/-- Environment of external contracts used by YieldOptimizer: the ERC-4626
vault surface (`asset()`, `deposit`, `redeem`, `convertToAssets`) and the
effect of an opaque router call.  `swapExec` maps the contract's token
balances to the balances after the swap; `none` is a failed router call. -/
structure VaultEnv where
  vaultAsset : Addr → Addr
  vaultDeposit : Addr → Nat → Nat
  vaultRedeem : Addr → Nat → Nat
  convertToAssets : Addr → Nat → Nat
  swapExec : SwapLeg → (Addr → Nat) → Option (Addr → Nat)

/-- Storage of YieldOptimizer restricted to one user (`msg.sender` is
fixed, so `userPositions[msg.sender]` is a single list), plus the ERC-20
balances held by the contract itself. -/
structure ChainState where
  positions : List Position
  balances : Addr → Nat
  whitelistedVaults : Addr → Bool
  whitelistedRouters : Addr → Bool
  paused : Bool

/-- YieldOptimizer.deposit.  Tokens move caller → contract → vault, so the
contract's own balance is unchanged by the two transfers. -/
def deposit (env : VaultEnv) (st : ChainState) (vault : Addr)
    (amount minSharesOut : Nat) : Option (ChainState × Nat) :=
  if st.paused then none
  else if !st.whitelistedVaults vault then none
  else if amount = 0 then none
  else
    let asset := env.vaultAsset vault
    if asset = addrZero then none
    else
      let shares := env.vaultDeposit vault amount
      if shares < minSharesOut then none
      else
        let newPosition : Position :=
          { vault := vault, asset := asset, shares := shares,
            assets := amount, active := true }
        some ({ st with positions := st.positions ++ [newPosition] }, shares)

/-- The position update block of YieldOptimizer.withdraw (lines 166-171):
decrement shares, recompute `assets` from the vault's live conversion
rate, deactivate at zero shares. -/
def withdrawUpdate (env : VaultEnv) (pos : Position) (shares : Nat) :
    Position :=
  let newShares := pos.shares - shares
  { pos with
    shares := newShares,
    assets := env.convertToAssets pos.vault newShares,
    active := if newShares = 0 then false else pos.active }

/-- YieldOptimizer.withdraw. -/
def withdraw (env : VaultEnv) (st : ChainState)
    (positionIndex shares minAssetsOut : Nat) : Option (ChainState × Nat) :=
  if st.paused then none
  else
    match st.positions.get? positionIndex with
    | none => none
    | some pos =>
      if !pos.active then none
      else if !(decide (0 < shares) && decide (shares ≤ pos.shares)) then none
      else
        let assets := env.vaultRedeem pos.vault shares
        if assets < minAssetsOut then none
        else
          some ({ st with positions :=
                    st.positions.set positionIndex (withdrawUpdate env pos shares) },
                assets)

/-- The swap loop of YieldOptimizer.optimizePosition (lines 215-229):
each leg requires a whitelisted router and a non-native input token, then
executes the opaque call; any failure reverts the whole transaction. -/
def execSwapLegs (env : VaultEnv) (wlRouters : Addr → Bool) :
    List SwapLeg → (Addr → Nat) → Option (Addr → Nat)
  | [], bal => some bal
  | leg :: rest, bal =>
    if !wlRouters leg.router then none
    else if leg.inputToken = addrZero then none
    else
      match env.swapExec leg bal with
      | none => none
      | some bal2 => execSwapLegs env wlRouters rest bal2

/-- YieldOptimizer.optimizePosition: redeem all shares from the source
vault, run the swap legs, deposit the contract's entire balance of the
target vault's underlying asset, overwrite the position. -/
def optimizePosition (env : VaultEnv) (st : ChainState) (positionIndex : Nat)
    (p : OptimizeParams) : Option (ChainState × Nat) :=
  if st.paused then none
  else
    match st.positions.get? positionIndex with
    | none => none
    | some pos =>
      if !st.whitelistedVaults p.targetVault then none
      else if !pos.active then none
      else
        let assetsRedeemed := env.vaultRedeem pos.vault pos.shares
        let bal1 : Addr → Nat := fun a =>
          if a = env.vaultAsset pos.vault then st.balances a + assetsRedeemed
          else st.balances a
        match execSwapLegs env st.whitelistedRouters p.legs bal1 with
        | none => none
        | some bal2 =>
          let targetAsset := env.vaultAsset p.targetVault
          if targetAsset = addrZero then none
          else
            let targetAssetBalance := bal2 targetAsset
            if targetAssetBalance = 0 then none
            else
              let newShares := env.vaultDeposit p.targetVault targetAssetBalance
              if newShares < p.minSharesOut then none
              else
                let bal3 : Addr → Nat := fun a =>
                  if a = targetAsset then bal2 a - targetAssetBalance else bal2 a
                some ({ st with
                          positions := st.positions.set positionIndex
                            { vault := p.targetVault, asset := targetAsset,
                              shares := newShares, assets := targetAssetBalance,
                              active := pos.active },
                          balances := bal3 },
                      newShares)

/-- Transaction-level semantics of optimizePosition: a revert leaves the
pre-call state in force. -/
def txOptimize (env : VaultEnv) (st : ChainState) (positionIndex : Nat)
    (p : OptimizeParams) : ChainState :=
  match optimizePosition env st positionIndex p with
  | none => st
  | some (st2, _) => st2

/-- Transaction-level semantics of withdraw. -/
def txWithdraw (env : VaultEnv) (st : ChainState)
    (positionIndex shares minAssetsOut : Nat) : ChainState :=
  match withdraw env st positionIndex shares minAssetsOut with
  | none => st
  | some (st2, _) => st2

end YieldX

/-- Model of JavaScript's `toLowerCase()` on address / token strings:
lower-case every character.  (Defined over the character list so that
concrete instances evaluate by `decide`.) -/
def String.lowerStr (s : String) : String := ⟨s.data.map Char.toLower⟩

namespace YieldX

/-! ## Off-chain backend model -/

/-- interface YieldOpportunity of GlueXYieldsService.ts, restricted to the
fields the pipeline reads (vault, asset, apy). -/
structure Opp where
  vault : String
  asset : String
  apy : ℤ
deriving DecidableEq, Repr

/-- One oracle answer for a vault: the asset the API reports for it and
the APY value getYieldOpportunities extracts (currentAPY, else averageAPY,
else the mean of the historical series). -/
structure OracleReading where
  asset : String
  apy : ℤ
deriving DecidableEq, Repr

/-- The yield oracle: the observable outcome of getHistoricalAPY for a
vault address.  `none` stands for a thrown error, a failed HTTP response
or absent data (getHistoricalAPY catches and returns success=false). -/
abbrev Fetch := String → Option OracleReading

/-- The GlueX vault whitelist hard-coded in YieldOptimizationService.ts. -/
def GLUEX_VAULTS : List String :=
  ["0xe25514992597786e07872e6c5517fe1906c0cadd",
   "0xcdc3975df9d1cf054f44ed238edfb708880292ea",
   "0x8f9291606862eef771a97e5b71e4b98fd1fa216a",
   "0x9f75eac57d1c6f7248bd2aede58c95689f3827f7",
   "0x63cf7ee583d9954febf649ad1c40c97a6493b1be"]

/-- The per-vault loop body of getYieldOpportunities: a failed or empty
oracle answer, or a non-positive APY, contributes nothing; otherwise the
vault yields an opportunity. -/
def rawOpportunities (fetch : Fetch) (vaultAddresses : List String) :
    List Opp :=
  vaultAddresses.filterMap fun vault =>
    match fetch vault with
    | none => none
    | some d => if 0 < d.apy then some ⟨vault, d.asset, d.apy⟩ else none

/-- Stable insertion step for descending APY order: `o` is placed before
the first element whose APY is not strictly greater, so elements of equal
APY keep their original relative order (JavaScript Array.sort is stable). -/
def insertDesc (o : Opp) : List Opp → List Opp
  | [] => [o]
  | x :: xs => if o.apy < x.apy then x :: insertDesc o xs else o :: x :: xs

/-- `opportunities.sort((a, b) => b.apy - a.apy)`: stable sort by APY,
highest first. -/
def sortByApyDesc (l : List Opp) : List Opp := l.foldr insertDesc []

/-- GlueXYieldsService.getYieldOpportunities. -/
def getYieldOpportunities (fetch : Fetch) (vaultAddresses : List String) :
    List Opp :=
  sortByApyDesc (rawOpportunities fetch vaultAddresses)

/-- GlueXYieldsService.findBestYieldForAsset: filter the sorted
opportunities by asset (only when a non-empty asset is given) and take
the first. -/
def findBestYieldForAsset (asset : String) (vaultAddresses : List String)
    (fetch : Fetch) : Option Opp :=
  let opportunities := getYieldOpportunities fetch vaultAddresses
  let assetOpportunities :=
    if asset = "" then opportunities
    else opportunities.filter fun o => o.asset.lowerStr == asset.lowerStr
  assetOpportunities.head?

/-- YieldOptimizationService.findBestYieldOpportunity: search the GlueX
whitelist (`currentAsset || ""` collapses a missing asset to the empty
string, which disables the asset filter). -/
def findBestYieldOpportunity (fetch : Fetch) (currentAsset : String) :
    Option Opp :=
  findBestYieldForAsset currentAsset GLUEX_VAULTS fetch

/-- The APY getUserPositions attaches to a position's vault:
`opportunities.length > 0 ? opportunities[0].apy : 0`. -/
def currentAPYof (fetch : Fetch) (vault : String) : ℤ :=
  match (getYieldOpportunities fetch [vault]).head? with
  | some o => o.apy
  | none => 0

/-- The go / no-go decision embedded in
YieldOptimizationService.optimizePosition (lines 196-239), split by the
early return taken. -/
inductive Decision where
  | noOpportunity : Decision
  | belowThreshold (best : Opp) (currentAPY : ℤ) : Decision
  | alreadyBest (best : Opp) (currentAPY : ℤ) : Decision
  | proceed (best : Opp) (currentAPY : ℤ) : Decision
deriving DecidableEq, Repr

/-- Whether a decision goes on to submit a reallocation. -/
def Decision.isProceed : Decision → Bool
  | .proceed _ _ => true
  | _ => false

/-- The decision phase of YieldOptimizationService.optimizePosition:
compare the best opportunity for the position's asset against the
position's current APY and the configured threshold, and refuse a
reallocation into the vault the position is already in. -/
def evaluateDecision (fetch : Fetch) (threshold : ℤ) (pos : Position) :
    Decision :=
  let currentAPY := currentAPYof fetch pos.vault
  match findBestYieldOpportunity fetch pos.asset with
  | none => .noOpportunity
  | some best =>
    if best.apy - currentAPY < threshold then .belowThreshold best currentAPY
    else if best.vault.lowerStr == pos.vault.lowerStr then
      .alreadyBest best currentAPY
    else .proceed best currentAPY

/-- Default of the `optimizationThreshold` field: 0.5% APY difference.
APY values are modelled in tenths of a percentage point (3% is 30,
4.2% is 42), so the default threshold is 5. -/
def defaultOptimizationThreshold : ℤ := 5

/-- `const minSharesOut = "0"` in
YieldOptimizationService.optimizePosition (line 290). -/
def executorMinSharesOut : Nat := 0

/-- The OptimizeParams the executor submits on-chain: the constructed swap
legs, the best vault as target, and the constant zero slippage floor. -/
def executorParams (legs : List SwapLeg) (targetVault : Addr) :
    OptimizeParams :=
  { legs := legs, targetVault := targetVault,
    minSharesOut := executorMinSharesOut }

/-- interface OptimizationResult of YieldOptimizationService.ts,
restricted to the fields the claims read. -/
structure OptimizationResult where
  success : Bool
  userAddress : String
  positionIndex : Nat
  fromVault : String
  toVault : String
  newAPY : ℤ
  previousAPY : ℤ
  error : Option String
deriving DecidableEq, Repr

/-- The document saveYieldOptimization creates (models/YieldOptimization):
written once after a confirmed reallocation, never updated. -/
structure OptimizationRecord where
  userAddress : String
  positionIndex : Nat
  fromVault : String
  toVault : String
  previousAPY : ℤ
  newAPY : ℤ
deriving DecidableEq, Repr

/-- The failure result built by the catch block of
YieldOptimizationService.optimizePosition (lines 356-367). -/
def catchResult (user : String) (positionIndex : Nat) (msg : String) :
    OptimizationResult :=
  { success := false, userAddress := user, positionIndex := positionIndex,
    fromVault := "", toVault := "", newAPY := 0, previousAPY := 0,
    error := some msg }

/-- External collaborators of the executor.  `userPositions` is the
on-chain getUserPositions read; `quote` is the GlueX router API (router
address and calldata for an input/output token pair, `none` on any
failure); `routerOk` is the outcome of ensureRouterWhitelisted; `txStatus`
is the observable fate of the submitted optimizePosition transaction for a
user / position / params triple: `none` if submission or the confirmation
wait throws, `some status` for a mined receipt. -/
structure ExecEnv where
  fetch : Fetch
  userPositions : String → List Position
  quote : String → String → Option (Addr × Nat)
  routerOk : Addr → Bool
  txStatus : String → Nat → OptimizeParams → Option Bool
  threshold : ℤ

/-- YieldOptimizationService.optimizePosition, whole pipeline: validate
the position, decide, build swap legs if the assets differ, submit, and
persist an OptimizationRecord only on a confirmed successful receipt.
Returns the structured outcome together with the records written. -/
def backendOptimizePosition (env : ExecEnv) (user : String) (idx : Nat) :
    OptimizationResult × List OptimizationRecord :=
  let positions := env.userPositions user
  match positions.get? idx with
  | none => (catchResult user idx "Invalid or inactive position", [])
  | some pos =>
    if !pos.active then (catchResult user idx "Invalid or inactive position", [])
    else
      let currentAPY := currentAPYof env.fetch pos.vault
      match findBestYieldOpportunity env.fetch pos.asset with
      | none => (catchResult user idx "No yield opportunities found", [])
      | some best =>
        if best.apy - currentAPY < env.threshold then
          ({ success := false, userAddress := user, positionIndex := idx,
             fromVault := pos.vault, toVault := best.vault,
             newAPY := best.apy, previousAPY := currentAPY,
             error := some "APY difference below threshold" }, [])
        else if best.vault.lowerStr == pos.vault.lowerStr then
          ({ success := false, userAddress := user, positionIndex := idx,
             fromVault := pos.vault, toVault := best.vault,
             newAPY := best.apy, previousAPY := currentAPY,
             error := some "Already in best vault" }, [])
        else
          let needsSwap := !(pos.asset.lowerStr == best.asset.lowerStr)
          let legsResult : Option (List SwapLeg) :=
            if needsSwap then
              match env.quote pos.asset best.asset with
              | none => none
              | some (router, calldataId) =>
                if !env.routerOk router then none
                else some [⟨router, calldataId, pos.asset, best.asset,
                            pos.assets⟩]
            else some []
          match legsResult with
          | none => (catchResult user idx "Failed to get swap quote or whitelist router", [])
          | some legs =>
            match env.txStatus user idx (executorParams legs best.vault) with
            | none => (catchResult user idx "Transaction submission failed", [])
            | some false => (catchResult user idx "Transaction failed", [])
            | some true =>
              ({ success := true, userAddress := user, positionIndex := idx,
                 fromVault := pos.vault, toVault := best.vault,
                 newAPY := best.apy, previousAPY := currentAPY,
                 error := none },
               [{ userAddress := user, positionIndex := idx,
                  fromVault := pos.vault, toVault := best.vault,
                  previousAPY := currentAPY, newAPY := best.apy }])

/-- The indices of a user's active positions, in order — the positions
the optimizeAllPositions loop does not `continue` past. -/
def activeIndices (positions : List Position) : List Nat :=
  (positions.enum.filter fun ip => ip.2.active).map fun ip => ip.1

/-- YieldOptimizationService.optimizeAllPositions, as the sequence of
per-position outcomes it produces: every user in turn, every active
position in turn; each iteration gets an outcome because
backendOptimizePosition is total (its catch block converts every error
into a failure result). -/
def batchResults (env : ExecEnv) : List String → List OptimizationResult
  | [] => []
  | user :: rest =>
    ((activeIndices (env.userPositions user)).map fun idx =>
      (backendOptimizePosition env user idx).1) ++ batchResults env rest

/-- The optimized / skipped counters accumulated by optimizeAllPositions. -/
def batchCounts (env : ExecEnv) (users : List String) : Nat × Nat :=
  let results := batchResults env users
  (results.countP (fun r => r.success), results.countP (fun r => !r.success))

/-! ## Spec-side comparison definitions -/

/-- Spec-side characterization for the selection rule: the first element
of the list attaining the maximal APY (ties go to the earlier, first-seen
element).  Compared against the head of the stable descending sort. -/
def firstMax : List Opp → Option Opp
  | [] => none
  | o :: l =>
    match firstMax l with
    | none => some o
    | some m => if o.apy < m.apy then some m else some o

/-- optimizePosition with the `newShares >= minSharesOut` slippage check
removed, for comparison: with the executor's constant zero floor the two
operations coincide. -/
def optimizePositionNoFloor (env : VaultEnv) (st : ChainState)
    (positionIndex : Nat) (p : OptimizeParams) : Option (ChainState × Nat) :=
  if st.paused then none
  else
    match st.positions.get? positionIndex with
    | none => none
    | some pos =>
      if !st.whitelistedVaults p.targetVault then none
      else if !pos.active then none
      else
        let assetsRedeemed := env.vaultRedeem pos.vault pos.shares
        let bal1 : Addr → Nat := fun a =>
          if a = env.vaultAsset pos.vault then st.balances a + assetsRedeemed
          else st.balances a
        match execSwapLegs env st.whitelistedRouters p.legs bal1 with
        | none => none
        | some bal2 =>
          let targetAsset := env.vaultAsset p.targetVault
          if targetAsset = addrZero then none
          else
            let targetAssetBalance := bal2 targetAsset
            if targetAssetBalance = 0 then none
            else
              let newShares := env.vaultDeposit p.targetVault targetAssetBalance
              let bal3 : Addr → Nat := fun a =>
                if a = targetAsset then bal2 a - targetAssetBalance else bal2 a
              some ({ st with
                        positions := st.positions.set positionIndex
                          { vault := p.targetVault, asset := targetAsset,
                            shares := newShares, assets := targetAssetBalance,
                            active := pos.active },
                        balances := bal3 },
                    newShares)

/-! ## Concrete fixtures for counterexamples and witnesses -/

/-- A vault whose share price is not 1: depositing `amount` mints
`amount / 2` shares and each share is worth a little less than 2 assets. -/
def envC2 : VaultEnv :=
  { vaultAsset := fun _ => "tokenA",
    vaultDeposit := fun _ amount => amount / 2,
    vaultRedeem := fun _ shares => shares,
    convertToAssets := fun _ shares => 2 * shares - 1,
    swapExec := fun _ bal => some bal }

/-- Empty ledger with one whitelisted vault. -/
def stC2 : ChainState :=
  { positions := [],
    balances := fun _ => 0,
    whitelistedVaults := fun v => v == "vaultV",
    whitelistedRouters := fun _ => false,
    paused := false }

/-- An open 10-share position whose recorded assets are 19. -/
def posW2 : Position :=
  { vault := "vaultV", asset := "tokenA", shares := 10, assets := 19,
    active := true }

/-- Ledger holding one open position in that vault, for the withdraw
witness. -/
def stW2 : ChainState := { stC2 with positions := [posW2] }

/-- Two vaults over two different underlying tokens; unit share price. -/
def envC3 : VaultEnv :=
  { vaultAsset := fun v => if v == "vaultA" then "tokenA" else "tokenB",
    vaultDeposit := fun _ amount => amount,
    vaultRedeem := fun _ shares => shares,
    convertToAssets := fun _ shares => shares,
    swapExec := fun _ bal => some bal }

/-- A position in vaultA (underlying tokenA) while the contract happens
to hold a stray balance of 5 tokenB. -/
def stC3 : ChainState :=
  { positions :=
      [{ vault := "vaultA", asset := "tokenA", shares := 10, assets := 10,
         active := true }],
    balances := fun a => if a == "tokenB" then 5 else 0,
    whitelistedVaults := fun v => v == "vaultA" || v == "vaultB",
    whitelistedRouters := fun _ => false,
    paused := false }

/-- Same ledger but with no stray tokenB balance. -/
def stW3 : ChainState := { stC3 with balances := fun _ => 0 }

/-- Zero swap legs aimed at vaultB. -/
def pC3 : OptimizeParams := { legs := [], targetVault := "vaultB", minSharesOut := 0 }

/-- Oracle for the C4 counterexample: the first whitelisted vault serves
tokenB at 5% APY, every other vault has no data. -/
def fetchC4 : Fetch := fun v =>
  if v == "0xe25514992597786e07872e6c5517fe1906c0cadd" then
    some { asset := "tokenB", apy := 50 }
  else none

/-- Lookup table behind the C5 / C6 / C7 witness oracle, keyed by
lower-cased vault address: the first GlueX vault (vault A) yields 3%, the
second (vault B) yields 4.2%, both over the same token. -/
def fetchTableW : String → Option OracleReading := fun v =>
  if v == "0xe25514992597786e07872e6c5517fe1906c0cadd" then
    some { asset := "tokena", apy := 30 }
  else if v == "0xcdc3975df9d1cf054f44ed238edfb708880292ea" then
    some { asset := "tokena", apy := 42 }
  else none

/-- Case-insensitive witness oracle. -/
def fetchW : Fetch := fun v => fetchTableW v.lowerStr

/-- A position in vault A over the common token. -/
def posW : Position :=
  { vault := "0xe25514992597786e07872e6c5517fe1906c0cadd",
    asset := "tokena", shares := 100, assets := 100, active := true }

/-- Oracle for the C6 witness: only the first GlueX vault has data, so the
best opportunity is the position's own vault. -/
def fetchW6 : Fetch := fun v =>
  if v == "0xe25514992597786e07872e6c5517fe1906c0cadd" then
    some { asset := "tokena", apy := 100 }
  else none

/-- Executor environment for the C7 witness: one user with one active
position in vault A, the oracle of `fetchW`, and a chain that confirms
every submitted transaction. -/
def envW7 : ExecEnv :=
  { fetch := fetchW,
    userPositions := fun u => if u == "u" then [posW] else [],
    quote := fun _ _ => some ("0xrouter", 0),
    routerOk := fun _ => true,
    txStatus := fun _ _ _ => some true,
    threshold := defaultOptimizationThreshold }

/-- Executor environment for the C8 witness: three users, each with one
active position; user u2's vault has no oracle data at all (the query
errors), so u2's evaluation fails while u1 and u3 still get outcomes. -/
def envW8 : ExecEnv :=
  { fetch := fetchW,
    userPositions := fun u =>
      if u == "u2" then
        [{ vault := "0xdeadvault", asset := "tokenz", shares := 1, assets := 1,
           active := true }]
      else if u == "u1" || u == "u3" then [posW]
      else [],
    quote := fun _ _ => none,
    routerOk := fun _ => false,
    txStatus := fun _ _ _ => some true,
    threshold := defaultOptimizationThreshold }

/-- Vault environment for the C9 witness; unit prices everywhere. -/
def envW9 : VaultEnv :=
  { vaultAsset := fun _ => "tokenA",
    vaultDeposit := fun _ amount => amount,
    vaultRedeem := fun _ shares => shares,
    convertToAssets := fun _ shares => shares,
    swapExec := fun _ bal => some bal }

/-- Ledger with a single active position holding 10 shares. -/
def stW9 : ChainState :=
  { positions :=
      [{ vault := "vaultV", asset := "tokenA", shares := 10, assets := 10,
         active := true }],
    balances := fun _ => 0,
    whitelistedVaults := fun v => v == "vaultV",
    whitelistedRouters := fun _ => false,
    paused := false }

/-! ## Helper lemmas on the stable descending sort -/

theorem insertDesc_ne_nil (o : Opp) (l : List Opp) : insertDesc o l ≠ [] := by
  cases l with
  | nil => simp [insertDesc]
  | cons x xs =>
    simp only [insertDesc]
    split <;> simp

theorem mem_insertDesc {x o : Opp} {l : List Opp} :
    x ∈ insertDesc o l ↔ x = o ∨ x ∈ l := by
  induction l with
  | nil => simp [insertDesc]
  | cons y ys ih =>
    simp only [insertDesc]
    split
    · rw [List.mem_cons, ih, List.mem_cons]
      tauto
    · simp only [List.mem_cons]

theorem sortByApyDesc_cons (y : Opp) (ys : List Opp) :
    sortByApyDesc (y :: ys) = insertDesc y (sortByApyDesc ys) := rfl

theorem mem_sortByApyDesc {x : Opp} {l : List Opp} :
    x ∈ sortByApyDesc l ↔ x ∈ l := by
  induction l with
  | nil => simp [sortByApyDesc]
  | cons y ys ih =>
    rw [sortByApyDesc_cons, mem_insertDesc, ih]
    simp

theorem sortByApyDesc_eq_nil {l : List Opp} (h : sortByApyDesc l = []) :
    l = [] := by
  cases l with
  | nil => rfl
  | cons y ys => exact absurd h (insertDesc_ne_nil y (sortByApyDesc ys))

theorem sorted_insertDesc {l : List Opp}
    (h : l.Pairwise fun a b => b.apy ≤ a.apy) (o : Opp) :
    (insertDesc o l).Pairwise fun a b => b.apy ≤ a.apy := by
  induction l with
  | nil => simp [insertDesc]
  | cons x xs ih =>
    rw [List.pairwise_cons] at h
    obtain ⟨hx, hxs⟩ := h
    simp only [insertDesc]
    split
    · rename_i hlt
      rw [List.pairwise_cons]
      refine ⟨fun y hy => ?_, ih hxs⟩
      rcases mem_insertDesc.1 hy with rfl | hy
      · exact le_of_lt hlt
      · exact hx y hy
    · rename_i hnlt
      rw [List.pairwise_cons]
      refine ⟨fun y hy => ?_, List.pairwise_cons.2 ⟨hx, hxs⟩⟩
      rcases List.mem_cons.1 hy with rfl | hy
      · exact not_lt.1 hnlt
      · exact le_trans (hx y hy) (not_lt.1 hnlt)

theorem sorted_sortByApyDesc (l : List Opp) :
    (sortByApyDesc l).Pairwise fun a b => b.apy ≤ a.apy := by
  induction l with
  | nil => simp [sortByApyDesc]
  | cons y ys ih => exact sorted_insertDesc ih y

theorem insertDesc_of_forall_le {l : List Opp} {o : Opp}
    (h : ∀ y ∈ l, y.apy ≤ o.apy) : insertDesc o l = o :: l := by
  cases l with
  | nil => rfl
  | cons x xs =>
    simp only [insertDesc]
    rw [if_neg (not_lt.2 (h x (List.mem_cons_self x xs)))]

theorem filter_insertDesc (p : Opp → Bool) {l : List Opp}
    (h : l.Pairwise fun a b => b.apy ≤ a.apy) (o : Opp) :
    (insertDesc o l).filter p =
      if p o then insertDesc o (l.filter p) else l.filter p := by
  induction l with
  | nil =>
    simp only [insertDesc, List.filter]
    cases hp : p o <;> simp [insertDesc, hp]
  | cons x xs ih =>
    rw [List.pairwise_cons] at h
    obtain ⟨hx, hxs⟩ := h
    simp only [insertDesc]
    split
    · rename_i hlt
      cases hpx : p x <;> cases hpo : p o <;>
        simp [List.filter_cons, hpx, hpo, ih hxs, insertDesc, hlt]
    · rename_i hnlt
      have hall : ∀ y ∈ (x :: xs).filter p, y.apy ≤ o.apy := by
        intro y hy
        rcases List.mem_cons.1 (List.mem_of_mem_filter hy) with rfl | hy2
        · exact not_lt.1 hnlt
        · exact le_trans (hx y hy2) (not_lt.1 hnlt)
      cases hpo : p o with
      | true =>
        rw [insertDesc_of_forall_le hall]
        simp [List.filter_cons, hpo]
      | false => simp [List.filter_cons, hpo]

theorem filter_sortByApyDesc (p : Opp → Bool) (l : List Opp) :
    (sortByApyDesc l).filter p = sortByApyDesc (l.filter p) := by
  induction l with
  | nil => rfl
  | cons y ys ih =>
    rw [sortByApyDesc_cons, filter_insertDesc p (sorted_sortByApyDesc ys) y,
      List.filter_cons]
    cases hpy : p y <;> simp [hpy, ih, sortByApyDesc_cons]

theorem head?_sortByApyDesc (l : List Opp) :
    (sortByApyDesc l).head? = firstMax l := by
  induction l with
  | nil => rfl
  | cons o l ih =>
    rw [sortByApyDesc_cons]
    cases hs : sortByApyDesc l with
    | nil =>
      have hl : l = [] := sortByApyDesc_eq_nil hs
      subst hl
      rfl
    | cons x xs =>
      have hfm : firstMax l = some x := by
        rw [← ih, hs, List.head?_cons]
      simp only [insertDesc, firstMax, hfm]
      split <;> rfl

theorem firstMax_eq_none {l : List Opp} : firstMax l = none ↔ l = [] := by
  cases l with
  | nil => simp [firstMax]
  | cons o l =>
    simp only [firstMax]
    constructor
    · intro h
      split at h
      · simp at h
      · split at h <;> simp at h
    · intro h
      exact absurd h (by simp)

theorem firstMax_mem {l : List Opp} : ∀ {b : Opp}, firstMax l = some b →
    b ∈ l := by
  induction l with
  | nil => intro b h; simp [firstMax] at h
  | cons o l ih =>
    intro b h
    cases hm : firstMax l with
    | none =>
      simp only [firstMax, hm, Option.some.injEq] at h
      subst h
      exact List.mem_cons_self o l
    | some m =>
      simp only [firstMax, hm] at h
      by_cases hlt : o.apy < m.apy
      · rw [if_pos hlt, Option.some.injEq] at h
        subst h
        exact List.mem_cons_of_mem o (ih hm)
      · rw [if_neg hlt, Option.some.injEq] at h
        subst h
        exact List.mem_cons_self o l

theorem firstMax_le {l : List Opp} : ∀ {b : Opp}, firstMax l = some b →
    ∀ o ∈ l, o.apy ≤ b.apy := by
  induction l with
  | nil => intro b h; simp [firstMax] at h
  | cons o l ih =>
    intro b h y hy
    cases hm : firstMax l with
    | none =>
      have hl : l = [] := firstMax_eq_none.1 hm
      subst hl
      simp only [firstMax, Option.some.injEq] at h
      subst h
      rcases List.mem_singleton.1 hy with rfl
      exact le_refl _
    | some m =>
      simp only [firstMax, hm] at h
      have hml : ∀ z ∈ l, z.apy ≤ m.apy := ih hm
      by_cases hlt : o.apy < m.apy
      · rw [if_pos hlt, Option.some.injEq] at h
        subst h
        rcases List.mem_cons.1 hy with rfl | hy2
        · exact le_of_lt hlt
        · exact hml y hy2
      · rw [if_neg hlt, Option.some.injEq] at h
        subst h
        rcases List.mem_cons.1 hy with rfl | hy2
        · exact le_refl _
        · exact le_trans (hml y hy2) (not_lt.1 hlt)

theorem mem_of_head?_opp {l : List Opp} {b : Opp} (h : l.head? = some b) :
    b ∈ l := by
  cases l with
  | nil => simp at h
  | cons x xs =>
    rw [List.head?_cons, Option.some.injEq] at h
    exact h ▸ List.mem_cons_self x xs

theorem fetch_of_mem_raw {fetch : Fetch} {vs : List String} {b : Opp}
    (h : b ∈ rawOpportunities fetch vs) :
    fetch b.vault = some ⟨b.asset, b.apy⟩ ∧ 0 < b.apy := by
  simp only [rawOpportunities, List.mem_filterMap] at h
  obtain ⟨v, _, hfv⟩ := h
  split at hfv
  · exact absurd hfv (by simp)
  · rename_i d hf
    split at hfv
    · rename_i hd
      simp only [Option.some.injEq] at hfv
      subst hfv
      exact ⟨hf, hd⟩
    · exact absurd hfv (by simp)

/-! ## Claim theorems -/

/-- Claim C1: every call to optimizePosition either leaves the position
list exactly as it was (any failure, a failed swap leg included, reverts
the transaction) or overwrites the position's vault, asset, shares and
assets fields together in one update; no partial update is observable. -/
theorem c1_optimizePosition_atomic (env : VaultEnv) (st : ChainState)
    (positionIndex : Nat) (p : OptimizeParams) :
    txOptimize env st positionIndex p = st ∨
    ∃ pos a n st2, optimizePosition env st positionIndex p = some (st2, n) ∧
      st.positions.get? positionIndex = some pos ∧
      st2.positions = st.positions.set positionIndex
        { vault := p.targetVault, asset := env.vaultAsset p.targetVault,
          shares := n, assets := a, active := pos.active } := by
  cases hres : optimizePosition env st positionIndex p with
  | none =>
    left
    simp [txOptimize, hres]
  | some r =>
    obtain ⟨st2, n⟩ := r
    right
    have hres2 := hres
    simp only [optimizePosition] at hres2
    split at hres2
    · exact absurd hres2 (by simp)
    · split at hres2
      · exact absurd hres2 (by simp)
      · rename_i pos hpos
        split at hres2
        · exact absurd hres2 (by simp)
        · split at hres2
          · exact absurd hres2 (by simp)
          · split at hres2
            · exact absurd hres2 (by simp)
            · rename_i bal2 hswap
              split at hres2
              · exact absurd hres2 (by simp)
              · split at hres2
                · exact absurd hres2 (by simp)
                · split at hres2
                  · exact absurd hres2 (by simp)
                  · rw [Option.some.injEq, Prod.mk.injEq] at hres2
                    obtain ⟨hst, hn⟩ := hres2
                    refine ⟨pos, bal2 (env.vaultAsset p.targetVault), n, st2,
                      rfl, hpos, ?_⟩
                    rw [← hst, ← hn]

/-- Claim C9: withdraw fails (reverts) on an out-of-range index, an
inactive position, or a shares argument outside (0, position.shares], and
the failed call leaves the ledger state — in particular every field of
the position — exactly as it was. -/
theorem c9_withdraw_validation (env : VaultEnv) (st : ChainState)
    (positionIndex shares minAssetsOut : Nat)
    (h : st.positions.length ≤ positionIndex ∨
      ∃ pos, st.positions.get? positionIndex = some pos ∧
        (pos.active = false ∨ shares = 0 ∨ pos.shares < shares)) :
    withdraw env st positionIndex shares minAssetsOut = none ∧
    txWithdraw env st positionIndex shares minAssetsOut = st := by
  have hw : withdraw env st positionIndex shares minAssetsOut = none := by
    unfold withdraw
    split
    · rfl
    · rcases h with hlen | ⟨pos, hpos, hbad⟩
      · rw [List.get?_eq_none.2 hlen]
      · rw [hpos]
        rcases hbad with ha | hs0 | hgt
        · simp [ha]
        · cases hact : pos.active <;> simp [hact, hs0]
        · have hsle : decide (shares ≤ pos.shares) = false :=
            decide_eq_false (Nat.not_le.2 hgt)
          cases hact : pos.active <;> simp [hact, hsle]
  exact ⟨hw, by simp [txWithdraw, hw]⟩

/-- Witness for C9: withdrawing 11 shares from a 10-share position fails
and leaves the state unchanged. -/
theorem c9_witness :
    withdraw envW9 stW9 0 11 0 = none ∧ txWithdraw envW9 stW9 0 11 0 = stW9 :=
  c9_withdraw_validation envW9 stW9 0 11 0
    (Or.inr ⟨{ vault := "vaultV", asset := "tokenA", shares := 10,
               assets := 10, active := true },
      rfl, Or.inr (Or.inr (by decide))⟩)

/-- Counterexample for C2: deposit stores the caller-supplied amount in
the `assets` field, not the vault's valuation of the minted shares.
Depositing 100 into a vault that mints 50 shares worth 99 leaves
`assets = 100` while `convertToAssets(50) = 99`. -/
theorem c2_counterexample :
    ((deposit envC2 stC2 "vaultV" 100 0).map fun r => r.1.positions) =
      some [{ vault := "vaultV", asset := "tokenA", shares := 50,
              assets := 100, active := true }] ∧
    envC2.convertToAssets "vaultV" 50 = 99 ∧ (100 : Nat) ≠ 99 := by decide

/-- Claim C2 (amended): a successful withdraw rewrites the position with
`withdrawUpdate`, which restores the invariant — zero shares deactivate
the position and `assets` is recomputed from the vault's conversion rate;
deposit, by contrast, records the caller-supplied amount as `assets`. -/
theorem c2_position_valuation (env : VaultEnv) (st : ChainState)
    (positionIndex shares minAssetsOut : Nat) (st2 : ChainState) (a : Nat)
    (pos : Position)
    (hw : withdraw env st positionIndex shares minAssetsOut = some (st2, a))
    (hpos : st.positions.get? positionIndex = some pos) :
    st2.positions =
      st.positions.set positionIndex (withdrawUpdate env pos shares) ∧
    ((withdrawUpdate env pos shares).shares = 0 →
      (withdrawUpdate env pos shares).active = false) ∧
    (withdrawUpdate env pos shares).assets =
      env.convertToAssets (withdrawUpdate env pos shares).vault
        (withdrawUpdate env pos shares).shares ∧
    ∀ vault amount minSharesOut2 st3 sh,
      deposit env st vault amount minSharesOut2 = some (st3, sh) →
      st3.positions = st.positions ++
        [{ vault := vault, asset := env.vaultAsset vault, shares := sh,
           assets := amount, active := true }] := by
  refine ⟨?_, ?_, ?_, ?_⟩
  · simp only [withdraw, hpos] at hw
    split at hw
    · exact absurd hw (by simp)
    · split at hw
      · exact absurd hw (by simp)
      · split at hw
        · exact absurd hw (by simp)
        · split at hw
          · exact absurd hw (by simp)
          · rw [Option.some.injEq, Prod.mk.injEq] at hw
            rw [← hw.1]
  · intro h0
    simp only [withdrawUpdate] at h0 ⊢
    rw [if_pos h0]
  · simp only [withdrawUpdate]
  · intro vault amount minSharesOut2 st3 sh hd
    simp only [deposit] at hd
    split at hd
    · exact absurd hd (by simp)
    · split at hd
      · exact absurd hd (by simp)
      · split at hd
        · exact absurd hd (by simp)
        · split at hd
          · exact absurd hd (by simp)
          · split at hd
            · exact absurd hd (by simp)
            · rw [Option.some.injEq, Prod.mk.injEq] at hd
              rw [← hd.1, ← hd.2]

/-- Witness for the amended C2: withdrawing 5 of 10 shares at share
price just under 2 stores `assets = convertToAssets(5) = 9`. -/
theorem c2_witness :
    (withdrawUpdate envC2 posW2 5).assets =
      envC2.convertToAssets (withdrawUpdate envC2 posW2 5).vault
        (withdrawUpdate envC2 posW2 5).shares :=
  (c2_position_valuation envC2 stW2 0 5 0
    { stW2 with positions := stW2.positions.set 0 (withdrawUpdate envC2 posW2 5) }
    5 posW2 rfl rfl).2.2.1

/-- Counterexample for C3: zero swap legs with mismatched source and
target assets do not revert when the contract happens to hold a stray
target-asset balance — here 5 tokenB sitting in the contract get
deposited and the position is overwritten, though the position's tokenA
stays stranded. -/
theorem c3_counterexample :
    envC3.vaultAsset "vaultA" ≠ envC3.vaultAsset "vaultB" ∧
    pC3.legs = [] ∧
    ((optimizePosition envC3 stC3 0 pC3).map fun r => (r.1.positions, r.2)) =
      some ([{ vault := "vaultB", asset := "tokenB", shares := 5, assets := 5,
               active := true }], 5) := by decide

/-- Claim C3 (amended): with zero swap legs and differing source / target
underlying assets, the reallocation reverts whenever the contract holds
no pre-existing balance of the target asset (the normal state: the
redeemed balance is in the source asset, so the `No assets after swap`
check fires). -/
theorem c3_mismatch_reverts (env : VaultEnv) (st : ChainState)
    (positionIndex : Nat) (p : OptimizeParams) (pos : Position)
    (hlegs : p.legs = [])
    (hpos : st.positions.get? positionIndex = some pos)
    (hbal : st.balances (env.vaultAsset p.targetVault) = 0)
    (hdiff : env.vaultAsset pos.vault ≠ env.vaultAsset p.targetVault) :
    optimizePosition env st positionIndex p = none ∧
    txOptimize env st positionIndex p = st := by
  have hnone : optimizePosition env st positionIndex p = none := by
    simp only [optimizePosition, hpos, hlegs, execSwapLegs]
    split
    · rfl
    · split
      · rfl
      · split
        · rfl
        · split
          · rfl
          · rw [if_neg (Ne.symm hdiff), hbal]
            simp
  exact ⟨hnone, by simp [txOptimize, hnone]⟩

/-- Witness for the amended C3: same two-vault setup as the
counterexample but with no stray tokenB balance — the call reverts. -/
theorem c3_witness :
    optimizePosition envC3 stW3 0 pC3 = none ∧
    txOptimize envC3 stW3 0 pC3 = stW3 :=
  c3_mismatch_reverts envC3 stW3 0 pC3
    { vault := "vaultA", asset := "tokenA", shares := 10, assets := 10,
      active := true }
    rfl rfl rfl (by decide)

/-- Counterexample for C4: when no whitelisted vault serves the
position's asset, findBestYieldForAsset reports no opportunity instead of
falling back to the best vault overall — here the only opportunity serves
tokenB, the position holds tokenA, and the result is `none` although the
unfiltered opportunity list is non-empty. -/
theorem c4_counterexample :
    findBestYieldForAsset "tokenA" GLUEX_VAULTS fetchC4 = none ∧
    getYieldOpportunities fetchC4 GLUEX_VAULTS =
      [{ vault := "0xe25514992597786e07872e6c5517fe1906c0cadd",
         asset := "tokenB", apy := 50 }] := by decide

/-- Claim C4 (amended): for a non-empty asset, findBestYieldForAsset
returns exactly the first-seen highest-APY opportunity among the vaults
serving that asset (first-seen in whitelist order, because the sort is
stable), and returns `none` — no fallback to other vaults — when no
opportunity matches the asset. -/
theorem c4_best_for_asset (fetch : Fetch) (vaultAddresses : List String)
    (asset : String) (h : asset ≠ "") :
    findBestYieldForAsset asset vaultAddresses fetch =
      firstMax ((rawOpportunities fetch vaultAddresses).filter
        fun o => o.asset.lowerStr == asset.lowerStr) ∧
    ∀ b, firstMax ((rawOpportunities fetch vaultAddresses).filter
        fun o => o.asset.lowerStr == asset.lowerStr) = some b →
      b ∈ (rawOpportunities fetch vaultAddresses).filter
        (fun o => o.asset.lowerStr == asset.lowerStr) ∧
      ∀ o ∈ (rawOpportunities fetch vaultAddresses).filter
        (fun o => o.asset.lowerStr == asset.lowerStr), o.apy ≤ b.apy := by
  constructor
  · simp only [findBestYieldForAsset, getYieldOpportunities, if_neg h]
    rw [filter_sortByApyDesc, head?_sortByApyDesc]
  · intro b hb
    exact ⟨firstMax_mem hb, firstMax_le hb⟩

/-- Witness for the amended C4: with vault A at 3% and vault B at 4.2%
over the same token, the selection is the first maximum of the filtered
raw list. -/
theorem c4_witness :
    findBestYieldForAsset "tokena" GLUEX_VAULTS fetchW =
      firstMax ((rawOpportunities fetchW GLUEX_VAULTS).filter
        fun o => o.asset.lowerStr == "tokena".lowerStr) :=
  (c4_best_for_asset fetchW GLUEX_VAULTS "tokena" (by decide)).1

/-- Claim C5: with a positive threshold and a case-insensitive oracle,
the decision to proceed is exactly `bestYield - currentYield >= t`: below
the threshold the evaluation skips, at or above it it proceeds (a best
vault equal to the current vault forces yield delta 0, which a positive
threshold already rejects). -/
theorem c5_threshold_gate (fetch : Fetch) (t : ℤ) (pos : Position) (b : Opp)
    (ht : 0 < t)
    (hci : ∀ v w : String, v.lowerStr = w.lowerStr → fetch v = fetch w)
    (hbest : findBestYieldOpportunity fetch pos.asset = some b) :
    (evaluateDecision fetch t pos).isProceed = true ↔
      t ≤ b.apy - currentAPYof fetch pos.vault := by
  have hmem : b ∈ rawOpportunities fetch GLUEX_VAULTS := by
    have hb := hbest
    simp only [findBestYieldOpportunity, findBestYieldForAsset] at hb
    by_cases ha : pos.asset = ""
    · rw [if_pos ha] at hb
      exact mem_sortByApyDesc.1 (mem_of_head?_opp hb)
    · rw [if_neg ha] at hb
      exact mem_sortByApyDesc.1 (List.mem_of_mem_filter (mem_of_head?_opp hb))
  obtain ⟨hfb, hbpos⟩ := fetch_of_mem_raw hmem
  simp only [evaluateDecision, hbest]
  by_cases hd : b.apy - currentAPYof fetch pos.vault < t
  · rw [if_pos hd]
    constructor
    · intro h
      exact absurd h (by simp [Decision.isProceed])
    · intro h
      exact absurd hd (not_lt.2 h)
  · rw [if_neg hd]
    by_cases hsame : (b.vault.lowerStr == pos.vault.lowerStr) = true
    · exfalso
      have hv : b.vault.lowerStr = pos.vault.lowerStr := eq_of_beq hsame
      have hfp : fetch pos.vault = some ⟨b.asset, b.apy⟩ := by
        rw [← hci b.vault pos.vault hv]
        exact hfb
      have hraw : rawOpportunities fetch [pos.vault] =
          [⟨pos.vault, b.asset, b.apy⟩] := by
        simp [rawOpportunities, hfp, hbpos]
      have hcval : currentAPYof fetch pos.vault = b.apy := by
        simp [currentAPYof, getYieldOpportunities, hraw, sortByApyDesc,
          insertDesc]
      apply hd
      rw [hcval]
      simpa using ht
    · rw [if_neg hsame]
      constructor
      · intro _
        exact not_lt.1 hd
      · intro _
        rfl

/-- Witness for C5: vault A at 3%, vault B at 4.2%, position in A.  With
the default 0.5% threshold the evaluation proceeds with target B; with a
2% threshold the same inputs do not proceed. -/
theorem c5_witness :
    (evaluateDecision fetchW defaultOptimizationThreshold posW).isProceed
      = true ∧
    evaluateDecision fetchW defaultOptimizationThreshold posW =
      .proceed { vault := "0xcdc3975df9d1cf054f44ed238edfb708880292ea",
                 asset := "tokena", apy := 42 } 30 ∧
    (evaluateDecision fetchW 20 posW).isProceed = false := by
  refine ⟨?_, by decide, by decide⟩
  exact (c5_threshold_gate fetchW defaultOptimizationThreshold posW
    { vault := "0xcdc3975df9d1cf054f44ed238edfb708880292ea",
      asset := "tokena", apy := 42 }
    (by norm_num [defaultOptimizationThreshold])
    (fun v w h => congrArg fetchTableW h)
    (by decide)).2 (by decide)

/-- Claim C6: when the best-yield vault is the position's current vault
the evaluation never proceeds, whatever the yield delta; consequently a
proceeding evaluation never targets the current vault. -/
theorem c6_never_current_vault (fetch : Fetch) (t : ℤ) (pos : Position) :
    (∀ best, findBestYieldOpportunity fetch pos.asset = some best →
      best.vault.lowerStr = pos.vault.lowerStr →
      (evaluateDecision fetch t pos).isProceed = false) ∧
    ∀ b c, evaluateDecision fetch t pos = .proceed b c →
      b.vault.lowerStr ≠ pos.vault.lowerStr := by
  constructor
  · intro best hbest hsame
    simp only [evaluateDecision, hbest]
    split
    · rfl
    · rw [if_pos (by rw [hsame]; exact beq_self_eq_true _)]
      rfl
  · intro b c h
    cases hbest : findBestYieldOpportunity fetch pos.asset with
    | none =>
      simp only [evaluateDecision, hbest] at h
      exact absurd h (by simp)
    | some best =>
      simp only [evaluateDecision, hbest] at h
      split at h
      · exact absurd h (by simp)
      · split at h
        · exact absurd h (by simp)
        · rename_i hneq
          injection h with h1 h2
          subst h1
          intro heq
          exact hneq (by rw [heq]; exact beq_self_eq_true _)

/-- Witness for C6: an oracle that reports the position's own vault as
the only (hence highest-yield) opportunity, with threshold 0 so the
yield-delta gate passes — the evaluation still refuses to proceed. -/
theorem c6_witness :
    (evaluateDecision fetchW6 0 posW).isProceed = false :=
  (c6_never_current_vault fetchW6 0 posW).1
    { vault := "0xe25514992597786e07872e6c5517fe1906c0cadd",
      asset := "tokena", apy := 100 }
    (by decide) (by decide)

/-- Claim C7: an OptimizationRecord is persisted exactly when the
submitted reallocation transaction is confirmed successful — a successful
outcome writes the one matching record and implies a confirmed receipt
for a zero-floor params value, and every failure outcome (any prior-step
failure or a failed confirmation) writes no record and carries a
structured error. -/
theorem c7_record_iff_confirmed (env : ExecEnv) (user : String) (idx : Nat)
    (res : OptimizationResult) (recs : List OptimizationRecord)
    (h : backendOptimizePosition env user idx = (res, recs)) :
    (res.success = true →
      recs = [{ userAddress := user, positionIndex := idx,
                fromVault := res.fromVault, toVault := res.toVault,
                previousAPY := res.previousAPY, newAPY := res.newAPY }] ∧
      ∃ p : OptimizeParams, p.minSharesOut = executorMinSharesOut ∧
        env.txStatus user idx p = some true) ∧
    (res.success = false → recs = [] ∧ res.error ≠ none) := by
  simp only [backendOptimizePosition] at h
  split at h
  · rw [Prod.mk.injEq] at h
    obtain ⟨h1, h2⟩ := h
    subst h1
    subst h2
    exact ⟨fun hs => by simp [catchResult] at hs,
      fun _ => ⟨rfl, by simp [catchResult]⟩⟩
  · rename_i pos hpos
    split at h
    · rw [Prod.mk.injEq] at h
      obtain ⟨h1, h2⟩ := h
      subst h1
      subst h2
      exact ⟨fun hs => by simp [catchResult] at hs,
        fun _ => ⟨rfl, by simp [catchResult]⟩⟩
    · split at h
      · rw [Prod.mk.injEq] at h
        obtain ⟨h1, h2⟩ := h
        subst h1
        subst h2
        exact ⟨fun hs => by simp [catchResult] at hs,
          fun _ => ⟨rfl, by simp [catchResult]⟩⟩
      · rename_i best hbest
        split at h
        · rw [Prod.mk.injEq] at h
          obtain ⟨h1, h2⟩ := h
          subst h1
          subst h2
          exact ⟨fun hs => by simp at hs, fun _ => ⟨rfl, by simp⟩⟩
        · split at h
          · rw [Prod.mk.injEq] at h
            obtain ⟨h1, h2⟩ := h
            subst h1
            subst h2
            exact ⟨fun hs => by simp at hs, fun _ => ⟨rfl, by simp⟩⟩
          · split at h
            · rw [Prod.mk.injEq] at h
              obtain ⟨h1, h2⟩ := h
              subst h1
              subst h2
              exact ⟨fun hs => by simp [catchResult] at hs,
                fun _ => ⟨rfl, by simp [catchResult]⟩⟩
            · rename_i legs hlegs
              split at h
              · rw [Prod.mk.injEq] at h
                obtain ⟨h1, h2⟩ := h
                subst h1
                subst h2
                exact ⟨fun hs => by simp [catchResult] at hs,
                  fun _ => ⟨rfl, by simp [catchResult]⟩⟩
              · rw [Prod.mk.injEq] at h
                obtain ⟨h1, h2⟩ := h
                subst h1
                subst h2
                exact ⟨fun hs => by simp [catchResult] at hs,
                  fun _ => ⟨rfl, by simp [catchResult]⟩⟩
              · rename_i htx
                rw [Prod.mk.injEq] at h
                obtain ⟨h1, h2⟩ := h
                subst h1
                subst h2
                refine ⟨fun _ => ⟨rfl, executorParams legs best.vault, rfl, htx⟩,
                  fun hs => by simp at hs⟩

/-- Witness for C7: a fully successful pipeline run (vault A to vault B,
confirmed receipt) writes exactly one record with the outcome's fields. -/
theorem c7_witness :
    (backendOptimizePosition envW7 "u" 0).2 =
      [{ userAddress := "u", positionIndex := 0,
         fromVault := (backendOptimizePosition envW7 "u" 0).1.fromVault,
         toVault := (backendOptimizePosition envW7 "u" 0).1.toVault,
         previousAPY := (backendOptimizePosition envW7 "u" 0).1.previousAPY,
         newAPY := (backendOptimizePosition envW7 "u" 0).1.newAPY }] :=
  ((c7_record_iff_confirmed envW7 "u" 0 _ _ rfl).1 (by decide)).1

/-- Claim C8: a vault whose oracle query fails contributes nothing but
does not abort the evaluation of the other vaults, and the batch driver
produces one outcome per active position of every user, whatever the
oracle does. -/
theorem c8_fault_isolation :
    (∀ (fetch : Fetch) (v : String) (vs1 vs2 : List String), fetch v = none →
      getYieldOpportunities fetch (vs1 ++ v :: vs2) =
        getYieldOpportunities fetch (vs1 ++ vs2)) ∧
    ∀ (env : ExecEnv) (users : List String),
      (batchResults env users).length =
        (users.map fun u => (activeIndices (env.userPositions u)).length).sum := by
  constructor
  · intro fetch v vs1 vs2 hv
    simp only [getYieldOpportunities, rawOpportunities, List.filterMap_append,
      List.filterMap_cons, hv]
  · intro env users
    induction users with
    | nil => rfl
    | cons u us ih =>
      simp only [batchResults, List.length_append, List.length_map,
        List.map_cons, List.sum_cons, ih]

/-- Witness for C8: three users, one active position each; user u2's
oracle data is absent, yet u1 and u3 still get (successful) outcomes and
u2 gets a structured failure outcome. -/
theorem c8_witness :
    getYieldOpportunities fetchW
        (["0xe25514992597786e07872e6c5517fe1906c0cadd"] ++ "0xbadvault" ::
          ["0xcdc3975df9d1cf054f44ed238edfb708880292ea"]) =
      getYieldOpportunities fetchW
        (["0xe25514992597786e07872e6c5517fe1906c0cadd"] ++
          ["0xcdc3975df9d1cf054f44ed238edfb708880292ea"]) ∧
    (batchResults envW8 ["u1", "u2", "u3"]).map (fun r => r.success) =
      [true, false, true] :=
  ⟨c8_fault_isolation.1 fetchW "0xbadvault" _ _ (by decide), by decide⟩

/-- Claim C10: the executor always submits `minSharesOut = 0` (the
literal `"0"` of the backend), and with a zero floor the on-chain
`newShares >= minSharesOut` check is vacuous: optimizePosition coincides
with the same operation with the slippage check removed. -/
theorem c10_zero_slippage_floor :
    (∀ (legs : List SwapLeg) (targetVault : Addr),
      (executorParams legs targetVault).minSharesOut = 0) ∧
    ∀ (env : VaultEnv) (st : ChainState) (positionIndex : Nat)
      (p : OptimizeParams), p.minSharesOut = 0 →
      optimizePosition env st positionIndex p =
        optimizePositionNoFloor env st positionIndex p := by
  constructor
  · intro legs targetVault
    rfl
  · intro env st positionIndex p hp
    simp only [optimizePosition, optimizePositionNoFloor, hp]
    split
    · rfl
    · split
      · rfl
      · split
        · rfl
        · split
          · rfl
          · split
            · rfl
            · split
              · rfl
              · split
                · rfl
                · simp [Nat.not_lt_zero]

/-- Witness for C10: on the two-vault fixture with the zero-floor params,
optimizePosition and its floor-less variant agree. -/
theorem c10_witness :
    (executorParams [] "vaultB").minSharesOut = 0 ∧
    optimizePosition envC3 stC3 0 pC3 =
      optimizePositionNoFloor envC3 stC3 0 pC3 :=
  ⟨c10_zero_slippage_floor.1 [] "vaultB",
   c10_zero_slippage_floor.2 envC3 stC3 0 pC3 rfl⟩

end YieldX
